import Mathlib

/-!
A verification development for the django-multisite host-routing layer.

The repository ships only its test suite here, so the components under
verification (alias resolution, tenant-context descriptor, host-routing
middleware, cookie-domain middleware, lifecycle hooks) are shallowly
embedded below from the specification, with the behavior pinned by the
repository's tests wherever they speak.  Strings are handled with
structurally recursive helpers so that every definition evaluates inside
the kernel.
-/

deriving instance DecidableEq for Except

namespace Multisite

/-! ## String helpers (structural, kernel-computable) -/

/-- Lowercase every character of a string (models Python `str.lower` on
ASCII hostnames). -/
def strLower (s : String) : String :=
  String.mk (s.data.map Char.toLower)

/-- Split a character list on a separator character; models Python
`str.split(sep)` (always returns at least one piece). -/
def splitCharAux (sep : Char) : List Char → List (List Char)
  | [] => [[]]
  | c :: rest =>
    let r := splitCharAux sep rest
    if c = sep then [] :: r
    else
      match r with
      | [] => [[c]]
      | h :: t => (c :: h) :: t

/-- Split a string on a separator character. -/
def splitChar (sep : Char) (s : String) : List String :=
  (splitCharAux sep s.data).map String.mk

/-- Split a hostname into its dot-separated labels, `host.split('.')`. -/
def splitDots (s : String) : List String :=
  splitChar '.' s

/-- Join labels with dots, `'.'.join(labels)`. -/
def joinDots : List String → String
  | [] => ""
  | [s] => s
  | s :: rest => s ++ "." ++ joinDots rest

/-- The last `n` elements of a list (the labels closest to the registrable
domain). -/
def takeLast {α : Type} (n : Nat) (l : List α) : List α :=
  l.drop (l.length - n)

/-! ## Data model (spec section 3) -/

/-- A TenantRecord: Django `Site` with an integer id and a primary domain. -/
structure Site where
  id : Nat
  domain : String
deriving DecidableEq, Repr

/-- An AliasRecord: a domain pattern routed to a tenant.  `site` holds the
owning tenant's id, `is_canonical` marks the single canonical alias of a
tenant, `redirect_to_canonical` defaults to true. -/
structure Alias where
  domain : String
  site : Nat
  is_canonical : Bool
  redirect_to_canonical : Bool := true
deriving DecidableEq, Repr

/-! ## Alias Resolution Engine (spec section 4.1, `Alias.objects`) -/

/-- The candidate pattern at step `i` over the dot-separated labels of the
host: step 0 is the exact host, step `i > 0` replaces the leftmost `i`
labels with a single `*` label, and step `length` is the bare wildcard. -/
def candidatePat (bits : List String) (i : Nat) : String :=
  if i = 0 then joinDots bits else joinDots ("*" :: bits.drop i)

/-- Modelled from the spec: the ordered candidate-pattern list of section
4.1 (`AliasManager._expand_netloc` without the leading emptiness check).
For each specificity step the variant carrying the port precedes the
variant without it. -/
def candidatesOf (host : String) (port : Option String) : List String :=
  let bits := splitDots host
  (List.range (bits.length + 1)).flatMap fun i =>
    let pat := candidatePat bits i
    match port with
    | some p => [pat ++ ":" ++ p, pat]
    | none => [pat]

/-- Modelled from the spec: `AliasManager._expand_netloc` (the repository
ships only its tests).  An empty host is a value error; otherwise the
section 4.1 candidate list is produced from most to least specific. -/
def expand_netloc (host : String) (port : Option String) : Except String (List String) :=
  if host = "" then .error "Invalid host"
  else .ok (candidatesOf host port)

/-- Look up a stored alias whose pattern equals the candidate,
case-insensitively (`domain__iexact`). -/
def findByPattern (store : List Alias) (d : String) : Option Alias :=
  store.find? fun a => strLower a.domain == strLower d

/-- Return the match for the first candidate that has one. -/
def firstMatch (store : List Alias) : List String → Option Alias
  | [] => none
  | d :: rest =>
    match findByPattern store d with
    | some a => some a
    | none => firstMatch store rest

/-- Modelled from the spec: `AliasManager.resolve`.  The first candidate
pattern (in section 4.1 order) with a stored alias wins; an empty host
resolves to no match by default policy. -/
def resolve (store : List Alias) (host : String) (port : Option String) : Option Alias :=
  if host = "" then none
  else firstMatch store (candidatesOf host port)

/-! ## Alias synchronization (spec section 3, `Alias.sync` and hooks) -/

/-- Failure taxonomy of the mutating alias operations (spec section 7). -/
inductive SyncErr where
  | validationFailure
  | valueError
  | multipleObjects
deriving DecidableEq, Repr

/-- All aliases stored for the given tenant id. -/
def aliasesOf (store : List Alias) (siteId : Nat) : List Alias :=
  store.filter fun a => a.site == siteId

/-- Modelled from the spec: `Alias._sync_blank_domain`.  A tenant whose
domain is not blank is a value error; with more than one stored alias for
the tenant the cleanup fails with a "multiple objects" error; with zero or
one it deletes the tenant's alias. -/
def syncBlankDomain (store : List Alias) (site : Site) : Except SyncErr (List Alias) :=
  if site.domain ≠ "" then .error .valueError
  else
    match aliasesOf store site.id with
    | [] => .ok store
    | [_] => .ok (store.filter fun a => !(a.site == site.id))
    | _ => .error .multipleObjects

/-- The canonical aliases stored for the given tenant id. -/
def canonicalOf (store : List Alias) (siteId : Nat) : List Alias :=
  store.filter fun a => a.site == siteId && a.is_canonical

/-- Case-insensitive duplicate-pattern test (uniqueness invariant of
spec section 3). -/
def hasPattern (store : List Alias) (domain : String) : Bool :=
  store.any fun a => strLower a.domain == strLower domain

/-- Modelled from the spec: `Alias.sync site force_insert`.  A blank
domain runs the blank-domain cleanup; `force_insert` inserts a fresh
canonical alias, erroring on a duplicate; otherwise the tenant's canonical
alias is fetched-or-created and its pattern rewritten in place when the
tenant's domain changed. -/
def syncSite (store : List Alias) (site : Site) (forceInsert : Bool) : Except SyncErr (List Alias) :=
  if site.domain = "" then syncBlankDomain store site
  else if forceInsert then
    if hasPattern store site.domain || !(canonicalOf store site.id).isEmpty then
      .error .validationFailure
    else .ok (store ++ [⟨site.domain, site.id, true, true⟩])
  else
    match canonicalOf store site.id with
    | [] => .ok (store ++ [⟨site.domain, site.id, true, true⟩])
    | [a] =>
      if a.domain = site.domain then .ok store
      else .ok (store.map fun b =>
        if b.site == site.id && b.is_canonical then { b with domain := site.domain } else b)
    | _ => .error .multipleObjects

/-- Modelled from the spec: `Alias.objects.create` validation.  The owning
tenant must exist; the pattern must not duplicate a stored pattern
case-insensitively; a tenant has at most one canonical alias; a canonical
alias's pattern must equal the tenant's domain. -/
def createAlias (sites : List Site) (store : List Alias) (siteId : Option Nat)
    (domain : String) (canonical : Bool) : Except SyncErr (List Alias) :=
  match siteId with
  | none => .error .validationFailure
  | some i =>
    match sites.find? (fun s => s.id == i) with
    | none => .error .validationFailure
    | some site =>
      if hasPattern store domain then .error .validationFailure
      else if canonical && !(canonicalOf store i).isEmpty then .error .validationFailure
      else if canonical && domain ≠ site.domain then .error .validationFailure
      else .ok (store ++ [⟨domain, i, canonical, true⟩])

/-- The alias store after an attempted create: the new store on success,
the untouched old store on a validation failure. -/
def storeAfterCreate (sites : List Site) (store : List Alias) (siteId : Option Nat)
    (domain : String) (canonical : Bool) : List Alias :=
  match createAlias sites store siteId domain canonical with
  | .ok s => s
  | .error _ => store

/-! ## Tenant lifecycle hooks (spec section 3) -/

/-- The world state shared by the hooks and the middleware: tenant records
and alias records. -/
structure World where
  sites : List Site
  aliases : List Alias
deriving DecidableEq, Repr

/-- Modelled from the spec: saving a TenantRecord (create or update) fires
the post-save hook, which runs `Alias.sync` on the saved tenant. -/
def saveSite (w : World) (site : Site) : Except SyncErr World :=
  let sites2 :=
    if w.sites.any (fun s => s.id == site.id) then
      w.sites.map fun s => if s.id == site.id then site else s
    else w.sites ++ [site]
  match syncSite w.aliases site false with
  | .ok al => .ok ⟨sites2, al⟩
  | .error e => .error e

/-- Modelled from the spec: deleting a TenantRecord cascades to its
aliases. -/
def deleteSite (w : World) (siteId : Nat) : World :=
  ⟨w.sites.filter (fun s => !(s.id == siteId)),
   w.aliases.filter (fun a => !(a.site == siteId))⟩

/-! ## Tenant-Context Descriptor (spec section 4.2, `SiteID`/`SiteDomain`) -/

/-- A Python value offered as the descriptor's bound default. -/
inductive DefaultVal where
  | pyNone
  | int (n : Int)
  | str (s : String)
  | descr
deriving DecidableEq, Repr

/-- Is the offered default a string? -/
def DefaultVal.isStr : DefaultVal → Bool
  | .str _ => true
  | _ => false

/-- Construction failures of the descriptor variants. -/
inductive CtorErr where
  | typeError
  | valueError
deriving DecidableEq, Repr

/-- Modelled from the spec: `SiteID.__init__`.  The default must be absent
or an integer identifier; any other value (the string `'a'`, another
descriptor instance) is rejected with a value error, as the test suite
pins (`TestSiteID.test_invalid_default`). -/
def siteIDInit (default : DefaultVal) : Except CtorErr (Option Int) :=
  match default with
  | .pyNone => .ok none
  | .int n => .ok (some n)
  | _ => .error .valueError

/-- Modelled from the spec: `SiteDomain.__init__`.  The default must be a
domain string; any non-string (including another descriptor) is rejected
with a type error (`TestSiteDomain.test_init`). -/
def siteDomainInit (default : DefaultVal) : Except CtorErr String :=
  match default with
  | .str s => .ok s
  | _ => .error .typeError

/-- Reading the descriptor: the override when set, else the bound
default. -/
def readSiteID (default : Nat) (ov : Option Nat) : Nat :=
  ov.getD default

/-- Modelled from the spec: `SiteID.override` used as a scope guard.  On
enter the current override is saved and the new value installed; the body
runs against the new state and may mutate it or fail; on exit, normal or
exceptional, the saved value is restored unconditionally. -/
def withOverride {E A : Type} (st : Option Nat) (v : Nat)
    (body : Option Nat → Except E (A × Option Nat)) : Except E A × Option Nat :=
  match body (some v) with
  | .ok (a, _) => (.ok a, st)
  | .error e => (.error e, st)

/-- An inner scope body that observes the override value and then exits by
raising (the observed value travels in the error payload). -/
def innerRaise : Option Nat → Except (Option Nat) (Unit × Option Nat) :=
  fun s => .error s

/-- The nested scenario of the test suite: `override 1` around `override 2`
whose body raises.  The outer body records the value it sees, the inner
error, and the state after the inner scope exits. -/
def nestedDemo : Except Unit (Option Nat × Except (Option Nat) Unit × Option Nat) × Option Nat :=
  withOverride none 1 fun s =>
    let p := withOverride s 2 innerRaise
    .ok ((s, p.1, p.2), p.2)

/-! ## Host-Routing Middleware (spec section 4.3, `DynamicSiteMiddleware`) -/

/-- An incoming request: host header (possibly with port) and the full
path (query included). -/
structure Request where
  host : String
  path : String
deriving DecidableEq, Repr

/-- A plain HTTP response as the downstream handler or fallback produces
it: status code and optional Location header. -/
structure HttpResp where
  status : Nat
  location : Option String := none
deriving DecidableEq, Repr

/-- The terminal state of a request (spec section 4.3):
served by the downstream handler under a tenant, permanently redirected,
delegated to the fallback handler, or a not-found failure. -/
inductive MwResult where
  | served (tenant : Nat) (resp : HttpResp)
  | redirect (status : Nat) (location : String)
  | fallbackResp (resp : HttpResp)
  | notFound
deriving DecidableEq, Repr

/-- The class of permanent redirects: HTTP 308 and its HTTP/1.0
predecessor 301 (spec: "permanent redirect (308-class)"). -/
def permanentRedirectClass (status : Nat) : Prop :=
  status = 301 ∨ status = 308

/-- Split a normalized netloc into host and optional port; an empty host
part (empty netloc, bare `:port`) is malformed. -/
def parseNetloc (netloc : String) : Option (String × Option String) :=
  match splitChar ':' netloc with
  | [h] => if h = "" then none else some (h, none)
  | [h, p] => if h = "" then none else some (h, some p)
  | _ => none

/-- Modelled from the spec: `DynamicSiteMiddleware.__call__` on one
request.  The host is lowercased; a malformed or unmatched host goes to
the configured fallback handler when one exists and otherwise fails
not-found with the tenant-context override reset; a non-canonical alias
with the redirect flag set becomes a permanent same-path redirect to the
canonical tenant domain without touching tenant context; otherwise the
override is set to the resolved tenant and the downstream handler runs. -/
def dynamicSiteMiddleware (w : World) (fallback : Option (Request → HttpResp))
    (downstream : Request → HttpResp) (st : Option Nat) (req : Request) :
    MwResult × Option Nat :=
  let miss : MwResult × Option Nat :=
    match fallback with
    | some f => (.fallbackResp (f req), st)
    | none => (.notFound, none)
  match parseNetloc (strLower req.host) with
  | none => miss
  | some (host, port) =>
    match resolve w.aliases host port with
    | none => miss
    | some a =>
      if !a.is_canonical && a.redirect_to_canonical then
        match w.sites.find? (fun s => s.id == a.site) with
        | some site => (.redirect 301 ("http://" ++ site.domain ++ req.path), st)
        | none => (.notFound, none)
      else
        (.served a.site (downstream req), some a.site)

/-! ## Cookie-Domain Middleware (spec section 4.4, `CookieDomainMiddleware`) -/

/-- The public-suffix split of a hostname: remaining subdomain labels, the
registrable label, and the matched public suffix. -/
structure Extracted where
  subLabels : List String
  domain : String
  suffix : String
deriving DecidableEq, Repr

/-- The length (in labels) of the longest trailing run of `labels` that is
a listed public suffix, 0 when none matches. -/
def longestSuffixLen (psl : List String) (labels : List String) : Nat :=
  (List.range (labels.length + 1)).foldl
    (fun acc k =>
      if 1 ≤ k && psl.contains (joinDots (labels.drop (labels.length - k))) then
        max acc k
      else acc)
    0

/-- Modelled from the spec: the Public-Suffix Resolver splitting a
hostname into (subdomain, registrable-domain label, suffix), longest
suffix first, over an explicit suffix list. -/
def extract (psl : List String) (host : String) : Extracted :=
  let labels := splitDots (strLower host)
  let k := longestSuffixLen psl labels
  if k = 0 then ⟨[], host, ""⟩
  else
    let rem := labels.take (labels.length - k)
    let suffix := joinDots (labels.drop (labels.length - k))
    match rem.getLast? with
    | none => ⟨[], "", suffix⟩
    | some d => ⟨rem.dropLast, d, suffix⟩

/-- Modelled from the spec: the cookie domain `CookieDomainMiddleware`
assigns for a request host, `none` meaning the cookie is left untouched.
No listed suffix (IP addresses, local names) or a bare public suffix
leaves the cookie unset; depth 0 keeps the registrable domain alone,
dropping every subdomain label (`test_multisite_extra_hosts` pins
`.extrahost.com` for `foo.bar.extrahost.com` at depth 0); a positive
depth keeps the last `depth` subdomain labels and leaves hosts without
subdomain labels unset. -/
def cookieDomainFor (depth : Nat) (psl : List String) (host : String) : Option String :=
  let e := extract psl host
  if e.suffix = "" then none
  else if e.domain = "" then none
  else if depth = 0 then
    some ("." ++ joinDots [e.domain, e.suffix])
  else if e.subLabels.isEmpty then none
  else
    some ("." ++ joinDots (takeLast depth e.subLabels ++ [e.domain, e.suffix]))

/-- The cookie domain exactly as claim C9 words it: a leading dot, then
the registrable domain preceded by up to `depth` leading subdomain labels,
unset only for a bare public suffix.  Stated for comparison with
`cookieDomainFor`. -/
def claimedCookieDomain (depth : Nat) (psl : List String) (host : String) : Option String :=
  let e := extract psl host
  if e.domain = "" then none
  else some ("." ++ joinDots (takeLast depth e.subLabels ++ [e.domain, e.suffix]))

/-- An outgoing cookie: name and optional explicit domain attribute. -/
structure Cookie where
  name : String
  domain : Option String := none
deriving DecidableEq, Repr

/-- Modelled from the spec: the response pass of `CookieDomainMiddleware`.
Every cookie without an explicit domain receives the computed domain (when
one is computed); cookies that already carry a domain are untouched. -/
def processCookies (depth : Nat) (psl : List String) (host : String)
    (cookies : List Cookie) : List Cookie :=
  cookies.map fun c =>
    match c.domain with
    | some _ => c
    | none => { c with domain := cookieDomainFor depth psl host }

/-- Modelled from the spec: `CookieDomainMiddleware.__init__` rejects a
negative or non-numeric configured depth with a value error. -/
def cookieMiddlewareInit (depth : Option Int) : Except CtorErr Nat :=
  match depth with
  | none => .error .valueError
  | some d => if d < 0 then .error .valueError else .ok d.toNat

/-- The alias-store invariant of spec section 3: patterns are unique,
compared case-insensitively. -/
def UniquePatterns (store : List Alias) : Prop :=
  ∀ a ∈ store, ∀ b ∈ store, strLower a.domain = strLower b.domain → a = b

/-! ## Helper lemmas -/

/-- `find?` is permutation-invariant when at most one element satisfies
the predicate. -/
theorem find?_perm_of_unique {α : Type} (p : α → Bool) {l₁ l₂ : List α}
    (hp : l₁.Perm l₂) (hu : ∀ a ∈ l₁, ∀ b ∈ l₁, p a = true → p b = true → a = b) :
    l₁.find? p = l₂.find? p := by
  cases h₁ : l₁.find? p with
  | none =>
    cases h₂ : l₂.find? p with
    | none => rfl
    | some b =>
      have hb : p b = true := List.find?_some h₂
      have hbm : b ∈ l₁ := hp.symm.subset (List.mem_of_find?_eq_some h₂)
      exact absurd hb (by simpa using List.find?_eq_none.mp h₁ b hbm)
  | some a =>
    have ha : p a = true := List.find?_some h₁
    have ham : a ∈ l₁ := List.mem_of_find?_eq_some h₁
    cases h₂ : l₂.find? p with
    | none =>
      exact absurd ha (by simpa using List.find?_eq_none.mp h₂ a (hp.subset ham))
    | some b =>
      have hb : p b = true := List.find?_some h₂
      have hbm : b ∈ l₁ := hp.symm.subset (List.mem_of_find?_eq_some h₂)
      rw [hu a ham b hbm ha hb]

/-- Under the uniqueness invariant, pattern lookup ignores the store's
insertion order. -/
theorem findByPattern_perm {store store2 : List Alias}
    (hu : UniquePatterns store) (hp : store.Perm store2) (d : String) :
    findByPattern store d = findByPattern store2 d := by
  apply find?_perm_of_unique _ hp
  intro a ha b hb hpa hpb
  exact hu a ha b hb ((eq_of_beq hpa).trans (eq_of_beq hpb).symm)

/-- `firstMatch` only depends on the per-candidate lookups. -/
theorem firstMatch_congr {store store2 : List Alias} (l : List String)
    (h : ∀ d ∈ l, findByPattern store d = findByPattern store2 d) :
    firstMatch store l = firstMatch store2 l := by
  induction l with
  | nil => rfl
  | cons d rest ih =>
    have hd : findByPattern store d = findByPattern store2 d := h d (by simp)
    have ih2 := ih fun e he => h e (by simp [he])
    unfold firstMatch
    rw [← hd, ih2]

/-- When no candidate has a stored alias, `firstMatch` is `none`. -/
theorem firstMatch_eq_none {store : List Alias} {l : List String}
    (h : ∀ d ∈ l, findByPattern store d = none) : firstMatch store l = none := by
  induction l with
  | nil => rfl
  | cons d rest ih =>
    unfold firstMatch
    rw [h d (by simp)]
    exact ih fun e he => h e (by simp [he])

/-- The first candidate with a stored alias wins no matter what comes
after it. -/
theorem firstMatch_append {store : List Alias} {pre : List String} (post : List String)
    {d : String} {a : Alias}
    (hpre : ∀ e ∈ pre, findByPattern store e = none)
    (hd : findByPattern store d = some a) :
    firstMatch store (pre ++ d :: post) = some a := by
  induction pre with
  | nil =>
    show firstMatch store (d :: post) = some a
    unfold firstMatch
    rw [hd]
  | cons e pre' ih =>
    show firstMatch store (e :: (pre' ++ d :: post)) = some a
    unfold firstMatch
    rw [hpre e (by simp)]
    exact ih fun x hx => hpre x (by simp [hx])

/-- Resolution ignores the insertion order of the alias set, given the
pattern-uniqueness invariant. -/
theorem resolve_perm {store store2 : List Alias}
    (hu : UniquePatterns store) (hp : store.Perm store2) (host : String)
    (port : Option String) :
    resolve store host port = resolve store2 host port := by
  unfold resolve
  by_cases hne : host = ""
  · simp [hne]
  · simp only [if_neg hne]
    exact firstMatch_congr _ fun d _ => findByPattern_perm hu hp d

/-- Filtering with a predicate after keeping only its complement yields
nothing. -/
theorem filter_not_filter {α : Type} (q : α → Bool) (l : List α) :
    (l.filter fun a => !(q a)).filter q = [] := by
  rw [List.filter_eq_nil_iff]
  intro a ha
  have hq : (!(q a)) = true := (List.mem_filter.mp ha).2
  simp only [Bool.not_eq_true'] at hq
  simp [hq]

/-! ## Claims -/

/-- C1: alias resolution generates the section 4.1 candidate list
(`www.example.com:8000` yields the 8 candidates in order), returns the
match of the first candidate that has one, returns `none` when no
candidate (or an empty host) matches, and is deterministic regardless of
the insertion order of the alias set. -/
theorem C1_resolve_most_specific
    (store store2 : List Alias) (host host2 : String) (port port2 : Option String)
    (pre post : List String) (d : String) (a : Alias)
    (hne : host ≠ "")
    (hu : UniquePatterns store)
    (hperm : store.Perm store2)
    (hsplit : candidatesOf host port = pre ++ d :: post)
    (hpre : ∀ e ∈ pre, findByPattern store e = none)
    (hd : findByPattern store d = some a)
    (hnone : ∀ e ∈ candidatesOf host2 port2, findByPattern store e = none) :
    expand_netloc "www.example.com" (some "8000") =
      .ok ["www.example.com:8000", "www.example.com", "*.example.com:8000",
           "*.example.com", "*.com:8000", "*.com", "*:8000", "*"]
    ∧ resolve store host port = some a
    ∧ resolve store host2 port2 = none
    ∧ resolve store "" port = none
    ∧ resolve store host port = resolve store2 host port
    ∧ resolve store host2 port2 = resolve store2 host2 port2 := by
  refine ⟨by decide, ?_, ?_, by simp [resolve], ?_, ?_⟩
  · unfold resolve
    rw [if_neg hne, hsplit]
    exact firstMatch_append post hpre hd
  · unfold resolve
    by_cases h : host2 = ""
    · rw [if_pos h]
    · rw [if_neg h]
      exact firstMatch_eq_none hnone
  · exact resolve_perm hu hperm host port
  · exact resolve_perm hu hperm host2 port2

/-- C1 witness: a two-alias store, queried in both insertion orders. -/
theorem C1_resolve_most_specific_witness :
    expand_netloc "www.example.com" (some "8000") =
      .ok ["www.example.com:8000", "www.example.com", "*.example.com:8000",
           "*.example.com", "*.com:8000", "*.com", "*:8000", "*"]
    ∧ resolve [⟨"*.example.com", 1, false, true⟩, ⟨"example.com", 1, true, true⟩]
        "www.example.com" none = some ⟨"*.example.com", 1, false, true⟩
    ∧ resolve [⟨"*.example.com", 1, false, true⟩, ⟨"example.com", 1, true, true⟩]
        "other.net" none = none
    ∧ resolve [⟨"*.example.com", 1, false, true⟩, ⟨"example.com", 1, true, true⟩]
        "" none = none
    ∧ resolve [⟨"*.example.com", 1, false, true⟩, ⟨"example.com", 1, true, true⟩]
        "www.example.com" none
      = resolve [⟨"example.com", 1, true, true⟩, ⟨"*.example.com", 1, false, true⟩]
        "www.example.com" none
    ∧ resolve [⟨"*.example.com", 1, false, true⟩, ⟨"example.com", 1, true, true⟩]
        "other.net" none
      = resolve [⟨"example.com", 1, true, true⟩, ⟨"*.example.com", 1, false, true⟩]
        "other.net" none :=
  C1_resolve_most_specific
    [⟨"*.example.com", 1, false, true⟩, ⟨"example.com", 1, true, true⟩]
    [⟨"example.com", 1, true, true⟩, ⟨"*.example.com", 1, false, true⟩]
    "www.example.com" "other.net" none none
    ["www.example.com"] ["*.com", "*"] "*.example.com" ⟨"*.example.com", 1, false, true⟩
    (by decide) (by unfold UniquePatterns; decide) (List.Perm.swap _ _ _) (by decide)
    (by decide) (by decide) (by decide)

/-- C2: a host resolving to a non-canonical alias with the redirect flag
set yields a permanent redirect (the 301/308 class) to the same request
path on the canonical tenant's domain, and the tenant-context override is
left untouched for that request. -/
theorem C2_redirect_to_canonical
    (w : World) (fallback : Option (Request → HttpResp)) (downstream : Request → HttpResp)
    (st : Option Nat) (req : Request) (h : String) (p : Option String)
    (a : Alias) (site : Site)
    (hparse : parseNetloc (strLower req.host) = some (h, p))
    (hres : resolve w.aliases h p = some a)
    (hcanon : a.is_canonical = false)
    (hredir : a.redirect_to_canonical = true)
    (hsite : w.sites.find? (fun s => s.id == a.site) = some site) :
    dynamicSiteMiddleware w fallback downstream st req =
      (.redirect 301 ("http://" ++ site.domain ++ req.path), st)
    ∧ permanentRedirectClass 301 := by
  refine ⟨?_, Or.inl rfl⟩
  unfold dynamicSiteMiddleware
  rw [hparse]
  simp only [hres, hcanon, hredir, Bool.not_false, Bool.true_and, if_true, hsite]

/-- C2 witness: host `example.org`, path `/path`, canonical tenant domain
`example.com`. -/
theorem C2_redirect_to_canonical_witness :
    dynamicSiteMiddleware
      ⟨[⟨1, "example.com"⟩],
       [⟨"example.com", 1, true, true⟩, ⟨"example.org", 1, false, true⟩]⟩
      none (fun _ => ⟨200, none⟩) (some 5) ⟨"example.org", "/path"⟩ =
      (.redirect 301 "http://example.com/path", some 5)
    ∧ permanentRedirectClass 301 :=
  C2_redirect_to_canonical
    ⟨[⟨1, "example.com"⟩],
     [⟨"example.com", 1, true, true⟩, ⟨"example.org", 1, false, true⟩]⟩
    none (fun _ => ⟨200, none⟩) (some 5) ⟨"example.org", "/path"⟩
    "example.org" none ⟨"example.org", 1, false, true⟩ ⟨1, "example.com"⟩
    (by decide) (by decide) rfl rfl (by decide)

/-- C3: a request whose host matches no alias is delegated entirely to the
configured fallback handler (its response returned as-is) when one exists;
with no fallback it fails not-found and the tenant-context override is
reset so the descriptor reads its configured default. -/
theorem C3_unknown_host
    (w : World) (f : Request → HttpResp) (downstream : Request → HttpResp)
    (st : Option Nat) (req : Request) (h : String) (p : Option String) (default : Nat)
    (hparse : parseNetloc (strLower req.host) = some (h, p))
    (hres : resolve w.aliases h p = none) :
    dynamicSiteMiddleware w (some f) downstream st req = (.fallbackResp (f req), st)
    ∧ dynamicSiteMiddleware w none downstream st req = (.notFound, none)
    ∧ readSiteID default (dynamicSiteMiddleware w none downstream st req).2 = default := by
  have hfall :
      dynamicSiteMiddleware w (some f) downstream st req = (.fallbackResp (f req), st) := by
    unfold dynamicSiteMiddleware
    rw [hparse]
    simp only [hres]
  have hnone : dynamicSiteMiddleware w none downstream st req = (.notFound, none) := by
    unfold dynamicSiteMiddleware
    rw [hparse]
    simp only [hres]
  exact ⟨hfall, hnone, by rw [hnone]; rfl⟩

/-- C3 witness: unknown host with a 302 fallback handler, then without a
fallback. -/
theorem C3_unknown_host_witness :
    dynamicSiteMiddleware ⟨[⟨1, "example.com"⟩], [⟨"example.com", 1, true, true⟩]⟩
      (some fun _ => ⟨302, some "http://example.com/"⟩) (fun _ => ⟨200, none⟩)
      (some 7) ⟨"unknown", "/"⟩
      = (.fallbackResp ⟨302, some "http://example.com/"⟩, some 7)
    ∧ dynamicSiteMiddleware ⟨[⟨1, "example.com"⟩], [⟨"example.com", 1, true, true⟩]⟩
      none (fun _ => ⟨200, none⟩) (some 7) ⟨"unknown", "/"⟩ = (.notFound, none)
    ∧ readSiteID 0
        (dynamicSiteMiddleware ⟨[⟨1, "example.com"⟩], [⟨"example.com", 1, true, true⟩]⟩
          none (fun _ => ⟨200, none⟩) (some 7) ⟨"unknown", "/"⟩).2 = 0 :=
  C3_unknown_host ⟨[⟨1, "example.com"⟩], [⟨"example.com", 1, true, true⟩]⟩
    (fun _ => ⟨302, some "http://example.com/"⟩) (fun _ => ⟨200, none⟩)
    (some 7) ⟨"unknown", "/"⟩ "unknown" none 0 (by decide) (by decide)

/-- C4: the scoped override is strictly nested and exception-safe: exiting
a scope restores the immediately-prior override on every exit path, the
body always enters with the new value installed, and in the nested
scenario the inner scope sees 2, the outer scope reads 1 again after the
inner scope exits by error, and the override is unset after the outer
scope exits. -/
theorem C4_override_nested_exception_safe :
    (∀ (E A : Type) (st : Option Nat) (v : Nat)
        (body : Option Nat → Except E (A × Option Nat)),
      (withOverride st v body).2 = st)
    ∧ (∀ (st : Option Nat) (v : Nat),
        (withOverride st v (fun s => (.ok (s, s) : Except Unit _))).1 = .ok (some v))
    ∧ nestedDemo = (.ok (some 1, .error (some 2), some 1), none) := by
  refine ⟨?_, fun st v => rfl, by decide⟩
  intro E A st v body
  unfold withOverride
  cases body (some v) with
  | error e => rfl
  | ok val => rfl

/-- C5: the lifecycle hooks maintain the canonical alias through create,
rename, blanking, re-setting and delete of a tenant, never holding more
than the one synthesized alias. -/
theorem C5_lifecycle_hooks :
    saveSite ⟨[], []⟩ ⟨1, "example.com"⟩ =
      .ok ⟨[⟨1, "example.com"⟩], [⟨"example.com", 1, true, true⟩]⟩
    ∧ saveSite ⟨[], []⟩ ⟨2, ""⟩ = .ok ⟨[⟨2, ""⟩], []⟩
    ∧ saveSite ⟨[⟨1, "example.com"⟩], [⟨"example.com", 1, true, true⟩]⟩ ⟨1, "example.org"⟩ =
      .ok ⟨[⟨1, "example.org"⟩], [⟨"example.org", 1, true, true⟩]⟩
    ∧ saveSite ⟨[⟨1, "example.org"⟩], [⟨"example.org", 1, true, true⟩]⟩ ⟨1, ""⟩ =
      .ok ⟨[⟨1, ""⟩], []⟩
    ∧ saveSite ⟨[⟨1, ""⟩], []⟩ ⟨1, "example.net"⟩ =
      .ok ⟨[⟨1, "example.net"⟩], [⟨"example.net", 1, true, true⟩]⟩
    ∧ deleteSite ⟨[⟨1, "example.net"⟩], [⟨"example.net", 1, true, true⟩]⟩ 1 = ⟨[], []⟩ := by
  decide

/-- C6: creating an alias whose pattern duplicates a stored pattern
case-insensitively, or a second canonical alias for a tenant that already
has one, fails with a validation failure and leaves the store unchanged. -/
theorem C6_create_validation
    (sites : List Site) (store : List Alias) (i j : Nat) (dom dom2 : String) (canon : Bool)
    (hdup : hasPattern store dom = true)
    (hcanon : (canonicalOf store j).isEmpty = false) :
    createAlias sites store (some i) dom canon = .error .validationFailure
    ∧ storeAfterCreate sites store (some i) dom canon = store
    ∧ createAlias sites store (some j) dom2 true = .error .validationFailure
    ∧ storeAfterCreate sites store (some j) dom2 true = store := by
  have h1 : createAlias sites store (some i) dom canon = .error .validationFailure := by
    unfold createAlias
    cases hf : sites.find? (fun s => s.id == i) with
    | none => simp [hf]
    | some site => simp [hf, hdup]
  have h3 : createAlias sites store (some j) dom2 true = .error .validationFailure := by
    unfold createAlias
    cases hf : sites.find? (fun s => s.id == j) with
    | none => simp [hf]
    | some site =>
      cases hp2 : hasPattern store dom2 with
      | true => simp [hf, hp2]
      | false => simp [hf, hp2, hcanon]
  refine ⟨h1, ?_, h3, ?_⟩
  · unfold storeAfterCreate
    rw [h1]
  · unfold storeAfterCreate
    rw [h3]

/-- C6 witness: the store of `AliasTest.test_create`: tenant 1 holds the
canonical alias `1.example` and the alias `1a.example`; creating
`1A.EXAMPLE` and creating a second canonical alias both fail, leaving the
store as it was. -/
theorem C6_create_validation_witness :
    createAlias [⟨1, "1b.example"⟩]
      [⟨"1.example", 1, true, true⟩, ⟨"1a.example", 1, false, true⟩]
      (some 1) "1A.EXAMPLE" false = .error .validationFailure
    ∧ storeAfterCreate [⟨1, "1b.example"⟩]
      [⟨"1.example", 1, true, true⟩, ⟨"1a.example", 1, false, true⟩]
      (some 1) "1A.EXAMPLE" false
      = [⟨"1.example", 1, true, true⟩, ⟨"1a.example", 1, false, true⟩]
    ∧ createAlias [⟨1, "1b.example"⟩]
      [⟨"1.example", 1, true, true⟩, ⟨"1a.example", 1, false, true⟩]
      (some 1) "1b.example" true = .error .validationFailure
    ∧ storeAfterCreate [⟨1, "1b.example"⟩]
      [⟨"1.example", 1, true, true⟩, ⟨"1a.example", 1, false, true⟩]
      (some 1) "1b.example" true
      = [⟨"1.example", 1, true, true⟩, ⟨"1a.example", 1, false, true⟩] :=
  C6_create_validation [⟨1, "1b.example"⟩]
    [⟨"1.example", 1, true, true⟩, ⟨"1a.example", 1, false, true⟩]
    1 1 "1A.EXAMPLE" "1b.example" false (by decide) (by decide)

/-- C7: the manual sync operation is idempotent: when a sync run succeeds,
rerunning it on the unchanged tenant does not fail and leaves the alias
store in the identical state. -/
theorem C7_sync_idempotent (store s2 : List Alias) (site : Site)
    (h : syncSite store site false = .ok s2) :
    syncSite s2 site false = .ok s2 := by
  by_cases hdom : site.domain = ""
  · unfold syncSite syncBlankDomain at h ⊢
    rw [if_pos hdom, if_neg (by simp [hdom])] at h ⊢
    cases hm : aliasesOf store site.id with
    | nil =>
      rw [hm] at h
      simp only [Except.ok.injEq] at h
      subst h
      rw [hm]
    | cons a t =>
      cases t with
      | nil =>
        rw [hm] at h
        simp only [Except.ok.injEq] at h
        subst h
        have h0 : aliasesOf (store.filter fun a => !(a.site == site.id)) site.id = [] :=
          filter_not_filter _ store
        rw [h0]
      | cons b t' =>
        rw [hm] at h
        simp at h
  · unfold syncSite at h ⊢
    rw [if_neg hdom, if_neg Bool.false_ne_true] at h ⊢
    cases hm : canonicalOf store site.id with
    | nil =>
      rw [hm] at h
      simp only [Except.ok.injEq] at h
      subst h
      have hc2 : canonicalOf (store ++ [⟨site.domain, site.id, true, true⟩]) site.id
          = [⟨site.domain, site.id, true, true⟩] := by
        unfold canonicalOf at hm ⊢
        rw [List.filter_append, hm]
        simp
      rw [hc2]
      simp
    | cons a t =>
      cases t with
      | nil =>
        simp only [hm] at h
        by_cases hda : a.domain = site.domain
        · rw [if_pos hda] at h
          simp only [Except.ok.injEq] at h
          subst h
          simp only [hm]
          rw [if_pos hda]
        · rw [if_neg hda] at h
          simp only [Except.ok.injEq] at h
          subst h
          have hpa : (a.site == site.id && a.is_canonical) = true := by
            have ham : a ∈ canonicalOf store site.id := by
              rw [hm]
              exact List.mem_singleton_self a
            exact (List.mem_filter.mp ham).2
          have hmap : canonicalOf (store.map fun b =>
                if b.site == site.id && b.is_canonical then
                  { b with domain := site.domain } else b) site.id
              = [{ a with domain := site.domain }] := by
            unfold canonicalOf at hm ⊢
            rw [List.filter_map]
            have hpt : ∀ x ∈ store,
                ((fun b : Alias => b.site == site.id && b.is_canonical) ∘ fun b =>
                  if b.site == site.id && b.is_canonical then
                    { b with domain := site.domain } else b) x
                = (fun b : Alias => b.site == site.id && b.is_canonical) x := by
              intro x hx
              simp only [Function.comp_apply]
              by_cases hcx : (x.site == site.id && x.is_canonical) = true
              · rw [if_pos hcx]
              · rw [if_neg hcx]
            rw [List.filter_congr hpt, hm]
            simp only [List.map_cons, List.map_nil, if_pos hpa]
          rw [hmap]
          simp
      | cons b t' =>
        rw [hm] at h
        simp at h

/-- C7 witness: syncing a freshly inserted canonical alias a second
time. -/
theorem C7_sync_idempotent_witness :
    syncSite [⟨"example.com", 1, true, true⟩] ⟨1, "example.com"⟩ false
      = .ok [⟨"example.com", 1, true, true⟩] :=
  C7_sync_idempotent [] [⟨"example.com", 1, true, true⟩] ⟨1, "example.com"⟩ (by decide)

/-- C8: with a blank tenant domain the cleanup of `sync` deletes the
tenant's alias when zero or one exist, and fails with a "multiple objects"
error when more than one alias exists for the tenant. -/
theorem C8_blank_domain_cleanup
    (store1 store2 : List Alias) (site : Site)
    (hdom : site.domain = "")
    (h1 : (aliasesOf store1 site.id).length ≤ 1)
    (h2 : 2 ≤ (aliasesOf store2 site.id).length) :
    syncSite store1 site false = .ok (store1.filter fun a => !(a.site == site.id))
    ∧ syncSite store2 site false = .error .multipleObjects := by
  constructor
  · unfold syncSite
    rw [if_pos hdom]
    unfold syncBlankDomain
    rw [if_neg (by simp [hdom])]
    cases hm : aliasesOf store1 site.id with
    | nil =>
      have hall : ∀ a ∈ store1, (!(a.site == site.id)) = true := by
        intro a ha
        unfold aliasesOf at hm
        simpa using List.filter_eq_nil_iff.mp hm a ha
      rw [List.filter_eq_self.mpr hall]
    | cons a t =>
      cases t with
      | nil => rfl
      | cons b t' =>
        rw [hm] at h1
        simp at h1
  · unfold syncSite
    rw [if_pos hdom]
    unfold syncBlankDomain
    rw [if_neg (by simp [hdom])]
    cases hm : aliasesOf store2 site.id with
    | nil =>
      rw [hm] at h2
      simp at h2
    | cons a t =>
      cases t with
      | nil =>
        rw [hm] at h2
        simp at h2
      | cons b t' => rfl

/-- C8 witness: tenant 1 with a blank domain, once with only its canonical
alias and once with an extra non-canonical alias. -/
theorem C8_blank_domain_cleanup_witness :
    syncSite [⟨"example.com", 1, true, true⟩] ⟨1, ""⟩ false = .ok []
    ∧ syncSite [⟨"example.com", 1, true, true⟩, ⟨"example.org", 1, false, true⟩] ⟨1, ""⟩ false
      = .error .multipleObjects :=
  C8_blank_domain_cleanup [⟨"example.com", 1, true, true⟩]
    [⟨"example.com", 1, true, true⟩, ⟨"example.org", 1, false, true⟩] ⟨1, ""⟩
    rfl (by decide) (by decide)

/-- C9 counterexample: at depth 1 and host `example.com` (equal to its own
registrable domain) the middleware leaves the cookie domain unset, while
the claim's formula sets `.example.com`. -/
theorem C9_cookie_domain_counterexample :
    cookieDomainFor 1 ["com"] "example.com" = none
    ∧ claimedCookieDomain 1 ["com"] "example.com" = some ".example.com"
    ∧ cookieDomainFor 1 ["com"] "example.com"
      ≠ claimedCookieDomain 1 ["com"] "example.com"
    ∧ processCookies 1 ["com"] "example.com" [⟨"a", none⟩] = [⟨"a", none⟩] := by
  decide

/-- C9 (amended): a cookie without an explicit domain receives a leading
dot followed by the registrable domain plus the last `min depth available`
subdomain labels (depth 0 keeps the registrable domain alone); the domain
is left unset for a bare public suffix, for a host with no listed suffix,
and at positive depth for a host equal to its registrable domain; in
particular depth 2 on `app.test2.example.com` yields
`.app.test2.example.com`, the bare suffix `ai` is left unset, and depth 0
on `foo.bar.extrahost.com` yields `.extrahost.com`. -/
theorem C9_cookie_domain
    (depth dp : Nat) (psl psl2 : List String) (host host2 : String) (name : String)
    (h1 : (extract psl host).suffix ≠ "")
    (h2 : (extract psl host).domain ≠ "")
    (h3 : depth = 0 ∨ (extract psl host).subLabels ≠ [])
    (h4 : (extract psl2 host2).suffix = "" ∨ (extract psl2 host2).domain = ""
          ∨ (dp ≠ 0 ∧ (extract psl2 host2).subLabels = [])) :
    cookieDomainFor depth psl host =
      some ("." ++ joinDots (takeLast depth (extract psl host).subLabels
        ++ [(extract psl host).domain, (extract psl host).suffix]))
    ∧ cookieDomainFor depth psl host = claimedCookieDomain depth psl host
    ∧ cookieDomainFor dp psl2 host2 = none
    ∧ processCookies depth psl host [⟨name, none⟩]
      = [⟨name, cookieDomainFor depth psl host⟩]
    ∧ cookieDomainFor 2 ["com", "ai", "com.ai"] "app.test2.example.com"
      = some ".app.test2.example.com"
    ∧ cookieDomainFor 2 ["com", "ai", "com.ai"] "ai" = none
    ∧ cookieDomainFor 0 ["com"] "foo.bar.extrahost.com" = some ".extrahost.com" := by
  have hmain : cookieDomainFor depth psl host =
      some ("." ++ joinDots (takeLast depth (extract psl host).subLabels
        ++ [(extract psl host).domain, (extract psl host).suffix])) := by
    unfold cookieDomainFor
    rw [if_neg h1, if_neg h2]
    by_cases hz : depth = 0
    · subst hz
      rw [if_pos rfl]
      unfold takeLast
      rw [Nat.sub_zero, List.drop_length]
      rfl
    · have hsub : (extract psl host).subLabels ≠ [] := h3.resolve_left hz
      rw [if_neg hz, if_neg (by simpa using hsub)]
  refine ⟨hmain, ?_, ?_, rfl, by decide, by decide, by decide⟩
  · unfold claimedCookieDomain
    rw [if_neg h2]
    exact hmain
  · unfold cookieDomainFor
    rcases h4 with h | h | ⟨hdp, hsub⟩
    · rw [if_pos h]
    · by_cases hs : (extract psl2 host2).suffix = ""
      · rw [if_pos hs]
      · rw [if_neg hs, if_pos h]
    · by_cases hs : (extract psl2 host2).suffix = ""
      · rw [if_pos hs]
      · by_cases hd : (extract psl2 host2).domain = ""
        · rw [if_neg hs, if_pos hd]
        · rw [if_neg hs, if_neg hd, if_neg hdp, if_pos (by simpa using hsub)]

/-- C9 witness: depth 0 on `foo.bar.extrahost.com` (registrable domain
only, per `test_multisite_extra_hosts`) and depth 1 on `example.com`
(left unset). -/
theorem C9_cookie_domain_witness :
    cookieDomainFor 0 ["com"] "foo.bar.extrahost.com"
      = some ("." ++ joinDots (takeLast 0 (extract ["com"] "foo.bar.extrahost.com").subLabels
        ++ [(extract ["com"] "foo.bar.extrahost.com").domain,
            (extract ["com"] "foo.bar.extrahost.com").suffix]))
    ∧ cookieDomainFor 0 ["com"] "foo.bar.extrahost.com"
      = claimedCookieDomain 0 ["com"] "foo.bar.extrahost.com"
    ∧ cookieDomainFor 1 ["com"] "example.com" = none
    ∧ processCookies 0 ["com"] "foo.bar.extrahost.com" [⟨"a", none⟩]
      = [⟨"a", cookieDomainFor 0 ["com"] "foo.bar.extrahost.com"⟩]
    ∧ cookieDomainFor 2 ["com", "ai", "com.ai"] "app.test2.example.com"
      = some ".app.test2.example.com"
    ∧ cookieDomainFor 2 ["com", "ai", "com.ai"] "ai" = none
    ∧ cookieDomainFor 0 ["com"] "foo.bar.extrahost.com" = some ".extrahost.com" :=
  C9_cookie_domain 0 1 ["com"] ["com"] "foo.bar.extrahost.com" "example.com" "a"
    (by decide) (by decide) (Or.inl rfl) (Or.inr (Or.inr ⟨by decide, by decide⟩))

/-- C10 counterexample: constructing the identifier-based descriptor with
another descriptor instance as default fails with a value error, not the
type error the claim states. -/
theorem C10_init_counterexample :
    siteIDInit DefaultVal.descr = .error CtorErr.valueError
    ∧ siteIDInit DefaultVal.descr ≠ .error CtorErr.typeError := by
  decide

/-- C10 (amended): domain-based descriptor construction rejects every
non-string default (an integer, `None`, or a descriptor instance) with a
type error; identifier-based construction rejects a default that is not an
integer identifier — the string `'a'` as well as a descriptor instance —
with a value error. -/
theorem C10_init_rejects_bad_defaults
    (d : DefaultVal) (hd : d.isStr = false) :
    siteDomainInit d = .error .typeError
    ∧ siteIDInit (.str "a") = .error .valueError
    ∧ siteIDInit .descr = .error .valueError
    ∧ siteDomainInit .descr = .error .typeError := by
  refine ⟨?_, rfl, rfl, rfl⟩
  cases d with
  | pyNone => rfl
  | int n => rfl
  | descr => rfl
  | str s => simp [DefaultVal.isStr] at hd

/-- C10 witness: the integer default `1` for the domain-based variant. -/
theorem C10_init_rejects_bad_defaults_witness :
    siteDomainInit (.int 1) = .error .typeError
    ∧ siteIDInit (.str "a") = .error .valueError
    ∧ siteIDInit .descr = .error .valueError
    ∧ siteDomainInit .descr = .error .typeError :=
  C10_init_rejects_bad_defaults (.int 1) rfl

end Multisite
